import Mathlib

/-!
# Verification of the daily scoring and streak-recalculation engine

Shallow embedding of `backend/services/scoring.js` (the Composer
`recalculateDailyScore` and the forward Reconciler
`recalculateStreaksForward`) together with the route handlers that invoke
them (`backend/routes/habits.js`, `backend/routes/tasks.js`, and the
`PUT /api/daily-status/:date` handler of `server.js`).

Modelling choices:
* Calendar dates are `ℤ` (day numbers); `d - 1` is the previous day and
  `d + 1` the next day, exactly as the JS code steps `Date` objects by one
  UTC day.
* JavaScript numbers are embedded as `ℚ` (every JS float is a rational;
  the comparisons and the exact equality test `newBonus !== oldBonus`
  used by the code are faithfully represented).
* `Math.log2` is an opaque numeric routine from the engine's point of
  view, so the whole engine is parametrised by a function
  `log2q : ℚ → ℚ` standing for the float implementation of
  `x ↦ log₂ x`.  Every theorem below holds for an arbitrary `log2q`.
* `Math.round` is `x ↦ ⌊x + 1/2⌋` (JS rounds halves towards +∞; on the
  positive arguments produced here this coincides with
  round-half-away-from-zero).
* The two SQLite tables `DailyScores` and `StreakData` are association
  lists keyed by date; `INSERT … ON CONFLICT(date) DO UPDATE` is an
  upsert replacing the (unique-keyed) existing row, and
  `UPDATE … WHERE date = ?` modifies the existing row only.  The
  `DailyScores` upsert issued by the Composer lists every column except
  `notes`, so a conflict update leaves the stored `notes` untouched and a
  fresh insert receives the schema default `''`.
-/

/-- One row of the `Tasks` table (the columns read by `calculateTaskScore`). -/
structure TaskRow where
  target_date : ℤ
  is_done : Bool
  is_assigned : Bool
  deriving Repr, DecidableEq

/-- One row of the `HabitCompletions` table (columns read by `calculateHabitScore`). -/
structure HabitCompletion where
  completion_date : ℤ
  weight_at_completion : ℚ
  deriving Repr, DecidableEq

/-- The `type` column of a `TimeLogs` row. -/
inductive LogType where
  | productive
  | distracting
  deriving Repr, DecidableEq

/-- One row of the `TimeLogs` table (columns read by `calculateTimeScore`). -/
structure TimeLog where
  date_logged_for : ℤ
  logType : LogType
  duration_minutes : ℚ
  deriving Repr, DecidableEq

/-- The external source tables consumed read-only by the scoring engine. -/
structure Env where
  tasks : List TaskRow
  habitCompletions : List HabitCompletion
  timeLogs : List TimeLog
  deriving Repr, DecidableEq

/-- The seven values the Composer computes for a date
(`scoreDataForDb` in `recalculateDailyScore`, step 8 of the source);
this is also the record the Composer returns. -/
structure ScoreData where
  habit_score_component : ℚ
  task_score_component : ℚ
  time_score_component : ℚ
  streak_bonus_component : ℚ
  total_daily_score : ℚ
  is_manually_marked_rest_day : Bool
  deriving Repr, DecidableEq

/-- A stored `DailyScores` row: the computed columns plus the free-text
`notes` column (schema default `''`), which the scoring engine never
lists in its writes. -/
structure ScoreRow where
  habit_score_component : ℚ
  task_score_component : ℚ
  time_score_component : ℚ
  streak_bonus_component : ℚ
  total_daily_score : ℚ
  is_manually_marked_rest_day : Bool
  notes : String
  deriving Repr, DecidableEq

/-- The row written for `date` by the Composer's `DailyScores` upsert:
all computed columns from `x`, with the `notes` column coming from
elsewhere (the old row on conflict, the schema default on insert). -/
def ScoreData.toRow (x : ScoreData) (notes : String) : ScoreRow :=
  { habit_score_component := x.habit_score_component
    task_score_component := x.task_score_component
    time_score_component := x.time_score_component
    streak_bonus_component := x.streak_bonus_component
    total_daily_score := x.total_daily_score
    is_manually_marked_rest_day := x.is_manually_marked_rest_day
    notes := notes }

/-- The persistent state of the engine: the `DailyScores` table and the
`StreakData` table, both keyed by date (unique key). -/
@[ext]
structure Store where
  dailyScores : List (ℤ × ScoreRow)
  streakData : List (ℤ × ℕ)
  deriving Repr, DecidableEq

/-- `SELECT … WHERE date = ?` on a date-keyed table. -/
def alookup {V : Type} (l : List (ℤ × V)) (k : ℤ) : Option V :=
  match l with
  | [] => none
  | (a, b) :: t => if a == k then some b else alookup t k

/-- `INSERT … ON CONFLICT(date) DO UPDATE` on a unique-keyed table:
replace the existing row for `k`, or append a fresh one. -/
def aupsert {V : Type} (l : List (ℤ × V)) (k : ℤ) (v : V) : List (ℤ × V) :=
  match l with
  | [] => [(k, v)]
  | (a, b) :: t => if a == k then (a, v) :: t else (a, b) :: aupsert t k v

/-- `UPDATE … WHERE date = ?` on a unique-keyed table: modify the row for
`k` when present, never insert. -/
def aupdate {V : Type} (l : List (ℤ × V)) (k : ℤ) (f : V → V) : List (ℤ × V) :=
  match l with
  | [] => []
  | (a, b) :: t => if a == k then (a, f b) :: t else (a, b) :: aupdate t k f

/-- The Composer's `DailyScores` upsert (step 9 of `recalculateDailyScore`):
every column except `notes` is written, so on conflict the old row's
`notes` survives and on insert `notes` gets the schema default `''`. -/
def upsertDaily (l : List (ℤ × ScoreRow)) (k : ℤ) (x : ScoreData) : List (ℤ × ScoreRow) :=
  match l with
  | [] => [(k, x.toRow "")]
  | (a, r) :: t => if a == k then (a, x.toRow r.notes) :: t else (a, r) :: upsertDaily t k x

/-- `SELECT MAX(date) FROM DailyScores` (`NULL`, i.e. `none`, on an empty
table). -/
def maxDate (l : List (ℤ × ScoreRow)) : Option ℤ :=
  (l.map Prod.fst).max?

-- ### Metric calculators (pure read queries of `scoring.js`)

/-- `SELECT COUNT(*) FROM Tasks WHERE target_date = ? AND is_done = TRUE`. -/
def numCompleted (env : Env) (d : ℤ) : ℕ :=
  (env.tasks.filter (fun t => t.target_date == d && t.is_done)).length

/-- `SELECT COUNT(*) FROM Tasks WHERE target_date = ? AND is_assigned = TRUE`. -/
def numAssigned (env : Env) (d : ℤ) : ℕ :=
  (env.tasks.filter (fun t => t.target_date == d && t.is_assigned)).length

/-- `calculateTaskScore` of `backend/services/scoring.js`: the completion
ratio when tasks are assigned; with `0` assigned, the completed count if
positive and `0.0` otherwise. -/
def calculateTaskScore (env : Env) (d : ℤ) : ℚ :=
  if 0 < numAssigned env d then
    (numCompleted env d : ℚ) / (numAssigned env d : ℚ)
  else if 0 < numCompleted env d then
    (numCompleted env d : ℚ)
  else 0

/-- The older copy of `calculateTaskScore` kept in the repository (the
second `scoring.js` variant): identical except that the
`0 assigned, 0 completed` branch yields `1.0` instead of `0.0`. -/
def calculateTaskScoreVariant (env : Env) (d : ℤ) : ℚ :=
  if 0 < numAssigned env d then
    (numCompleted env d : ℚ) / (numAssigned env d : ℚ)
  else if 0 < numCompleted env d then
    (numCompleted env d : ℚ)
  else 1

/-- `calculateHabitScore`: `SELECT SUM(weight_at_completion) FROM
HabitCompletions WHERE completion_date = ?`, with SQL `NULL` (empty sum)
coerced to `0` by `row.score || 0`. -/
def calculateHabitScore (env : Env) (d : ℤ) : ℚ :=
  ((env.habitCompletions.filter (fun c => c.completion_date == d)).map
    (fun c => c.weight_at_completion)).sum

/-- Sum of `duration_minutes` over the `TimeLogs` rows of `d` with the
given `type` (the two `SUM(CASE WHEN …)` aggregates of
`calculateTimeScore`). -/
def minutesOf (env : Env) (d : ℤ) (ty : LogType) : ℚ :=
  ((env.timeLogs.filter (fun tl => tl.date_logged_for == d && tl.logType == ty)).map
    (fun tl => tl.duration_minutes)).sum

/-- `calculateTimeScore`: `(productiveMinutes/60 - distractingMinutes/60) * 10`. -/
def calculateTimeScore (env : Env) (d : ℤ) : ℚ :=
  (minutesOf env d LogType.productive / 60 - minutesOf env d LogType.distracting / 60) * 10

-- ### The Daily Score Composer (`recalculateDailyScore`)

/-- `Math.round` of JavaScript: round half towards +∞, i.e. `⌊x + 1/2⌋`.
On the positive values it is applied to here this agrees with
round-half-away-from-zero. -/
def jsRound (x : ℚ) : ℤ :=
  Int.floor (x + 1 / 2)

/-- Step 1 of `recalculateDailyScore`: read `is_manually_marked_rest_day`
from the existing `DailyScores` row of `date` (`=== 1`), defaulting to
`false` when no row exists. -/
def composerIsRestDay (s : Store) (d : ℤ) : Bool :=
  match alookup s.dailyScores d with
  | some r => r.is_manually_marked_rest_day
  | none => false

/-- Step 3 of `recalculateDailyScore`: read the previous day's
`current_streak_days` from `StreakData`, defaulting to `0`. -/
def composerPrevStreak (s : Store) (d : ℤ) : ℕ :=
  match alookup s.streakData (d - 1) with
  | some v => v
  | none => 0

/-- `habit_points = habit_score_sum_weights * 100`. -/
def habitPoints (env : Env) (d : ℤ) : ℚ :=
  calculateHabitScore env d * 100

/-- `task_points = task_score_ratio * 100`. -/
def taskPoints (env : Env) (d : ℤ) : ℚ :=
  calculateTaskScore env d * 100

/-- Step 4 of `recalculateDailyScore`:
`base_daily_score = habit_points*0.45 + task_points*0.45 + time_score_points*0.1`. -/
def baseDailyScore (env : Env) (d : ℤ) : ℚ :=
  habitPoints env d * 0.45 + taskPoints env d * 0.45 + calculateTimeScore env d * 0.1

/-- Step 5 of `recalculateDailyScore` (streak logic of the Composer):
returns `(new_streak_days_for_storage, current_streak_days_for_bonus)`.
`current_streak_days_for_bonus` starts at the previous day's streak, and
the branches assign exactly as the source does. -/
def composerStreakLogic (isRestDay : Bool) (base : ℚ) (prevDayStreak : ℕ) : ℕ × ℕ :=
  let forBonus := prevDayStreak
  if isRestDay then
    (prevDayStreak, forBonus)
  else if 60 ≤ base then
    let storage := prevDayStreak + 1
    (storage, storage)
  else
    (0, 0)

/-- Step 6 of `recalculateDailyScore`: the streak bonus,
`Math.round(Math.log2(2 + basis/365) * 100) / 100` when the bonus basis
is positive and `0` otherwise. -/
def composerBonus (log2q : ℚ → ℚ) (basis : ℕ) : ℚ :=
  if 0 < basis then
    (jsRound (log2q (2 + (basis : ℚ) / 365) * 100) : ℚ) / 100
  else 0

/-- The streak transition computed by the Composer for `date` from the
store: step 5 applied to the rest-day flag, the base score and the
previous day's streak. -/
def composerTransition (env : Env) (s : Store) (d : ℤ) : ℕ × ℕ :=
  composerStreakLogic (composerIsRestDay s d) (baseDailyScore env d) (composerPrevStreak s d)

/-- Step 8 of `recalculateDailyScore`: the `scoreDataForDb` object — the
scaled components, this day's streak bonus, the total
`base_daily_score + streak_bonus_component`, and the rest-day flag. -/
def scoreDataForDb (log2q : ℚ → ℚ) (env : Env) (s : Store) (d : ℤ) : ScoreData :=
  { habit_score_component := habitPoints env d
    task_score_component := taskPoints env d
    time_score_component := calculateTimeScore env d
    streak_bonus_component := composerBonus log2q (composerTransition env s d).2
    total_daily_score := baseDailyScore env d + composerBonus log2q (composerTransition env s d).2
    is_manually_marked_rest_day := composerIsRestDay s d }

/-- `recalculateDailyScore` of `backend/services/scoring.js` (the
Composer): computes `scoreDataForDb`, upserts it into `DailyScores`
(step 9), upserts `new_streak_days_for_storage` into `StreakData`
(step 10), and returns the computed record. -/
def recalculateDailyScore (log2q : ℚ → ℚ) (env : Env) (s : Store) (d : ℤ) :
    Store × ScoreData :=
  let data := scoreDataForDb log2q env s d
  ( { dailyScores := upsertDaily s.dailyScores d data
      streakData := aupsert s.streakData d (composerTransition env s d).1 }
  , data )

/-- `recalculateDailyScore` with write-failure injection: the two `runDb`
calls of steps 9 and 10 are sequential `await`s with no transaction, so a
rejection of either aborts the function (the `catch` block rethrows).
`dailyWriteFails` (resp. `streakWriteFails`) makes the `DailyScores`
(resp. `StreakData`) write reject; `none` is the propagated error. -/
def recalculateDailyScoreFallible (log2q : ℚ → ℚ) (env : Env)
    (dailyWriteFails streakWriteFails : Bool) (s : Store) (d : ℤ) :
    Store × Option ScoreData :=
  let data := scoreDataForDb log2q env s d
  if dailyWriteFails then
    (s, none)
  else
    let s1 : Store := { s with dailyScores := upsertDaily s.dailyScores d data }
    if streakWriteFails then
      (s1, none)
    else
      ( { s1 with streakData := aupsert s1.streakData d (composerTransition env s d).1 }
      , some data )

-- ### The Forward Streak Reconciler (`recalculateStreaksForward`)

/-- One SQL write performed by the Reconciler: the unconditional
`StreakData` upsert of step 4, or the conditional `DailyScores`
bonus/total `UPDATE` of step 6. -/
inductive DbWrite where
  | streak (d : ℤ) (v : ℕ)
  | dailyBonus (d : ℤ) (bonus total : ℚ)
  deriving Repr, DecidableEq

/-- Reconciler step 1b: recover the base score from the stored
components: `habit*0.45 + task*0.45 + time*0.1`. -/
def reconcilerBaseScore (row : ScoreRow) : ℚ :=
  row.habit_score_component * 0.45 + row.task_score_component * 0.45 +
    row.time_score_component * 0.1

/-- Reconciler step 3 (streak logic): returns
`(newStreakForCurrentDay_storage, streakUsedForBonusCalculation)`;
`streakUsedForBonusCalculation` starts at the previous day's actual
streak, and the branches assign exactly as the source does. -/
def reconcilerStreakLogic (isRestDay : Bool) (base : ℚ) (actualPrevDayStreak : ℕ) : ℕ × ℕ :=
  let forBonus := actualPrevDayStreak
  if isRestDay then
    (actualPrevDayStreak, forBonus)
  else if 60 ≤ base then
    let storage := actualPrevDayStreak + 1
    (storage, storage)
  else
    (0, 0)

/-- Reconciler step 5: the recomputed bonus,
`Math.round(Math.log2(2 + basis/365) * 100) / 100` when
`streakUsedForBonusCalculation > 0` and `0` otherwise. -/
def reconcilerBonus (log2q : ℚ → ℚ) (basis : ℕ) : ℚ :=
  if 0 < basis then
    (jsRound (log2q (2 + (basis : ℚ) / 365) * 100) : ℚ) / 100
  else 0

/-- Reconciler step 2: `SELECT current_streak_days FROM StreakData WHERE
date = ?` for the day immediately preceding the loop day, defaulting to
`0` (`actualPrevDayStreak`). -/
def reconcilerPrevStreak (s : Store) (d : ℤ) : ℕ :=
  match alookup s.streakData (d - 1) with
  | some v => v
  | none => 0

/-- The streak transition computed by the Reconciler for a loop day from
its stored `DailyScores` row: step 3 applied to the stored rest flag, the
recovered base score and the previous day's actual streak. -/
def reconcilerTransition (s : Store) (d : ℤ) (row : ScoreRow) : ℕ × ℕ :=
  reconcilerStreakLogic row.is_manually_marked_rest_day (reconcilerBaseScore row)
    (reconcilerPrevStreak s d)

/-- One iteration of the `recalculateStreaksForward` loop for date `d`:
fetch the `DailyScores` row (warn and skip when absent), recover the base
score and rest flag, read the previous day's streak, apply the streak
logic, unconditionally upsert `StreakData`, and update the `DailyScores`
bonus and total only when `newBonus !== oldBonus`.  Returns the new store
and the SQL writes performed. -/
def reconcileStep (log2q : ℚ → ℚ) (s : Store) (d : ℤ) : Store × List DbWrite :=
  match alookup s.dailyScores d with
  | none => (s, [])
  | some row =>
    let baseScoreForThisDay := reconcilerBaseScore row
    let oldBonus := row.streak_bonus_component
    let tr := reconcilerTransition s d row
    let s1 : Store := { s with streakData := aupsert s.streakData d tr.1 }
    let newBonus := reconcilerBonus log2q tr.2
    if newBonus = oldBonus then
      (s1, [DbWrite.streak d tr.1])
    else
      let newTotalScoreForThisDay := baseScoreForThisDay + newBonus
      ( { s1 with
          dailyScores := aupdate s1.dailyScores d (fun r =>
            { r with
              streak_bonus_component := newBonus
              total_daily_score := newTotalScoreForThisDay }) }
      , [DbWrite.streak d tr.1, DbWrite.dailyBonus d newBonus newTotalScoreForThisDay])

/-- The `while (currentDate <= stopDateLoop)` loop of
`recalculateStreaksForward`: `reconcileLoop log2q n s d` processes the
`n` consecutive dates `d, d+1, …, d+n-1`. -/
def reconcileLoop (log2q : ℚ → ℚ) : ℕ → Store → ℤ → Store × List DbWrite
  | 0, s, _ => (s, [])
  | n + 1, s, d =>
    let r1 := reconcileStep log2q s d
    let r2 := reconcileLoop log2q n r1.1 (d + 1)
    (r2.1, r1.2 ++ r2.2)

/-- `recalculateStreaksForward` of `backend/services/scoring.js`: find
`MAX(date)` in `DailyScores` (nothing to do when the table is empty or
the start date lies after it), then walk one calendar day at a time from
the start date to that last date inclusive. -/
def recalculateStreaksForward (log2q : ℚ → ℚ) (s : Store) (startDate : ℤ) :
    Store × List DbWrite :=
  match maxDate s.dailyScores with
  | none => (s, [])
  | some lastDayInLoop =>
    if lastDayInLoop < startDate then (s, [])
    else reconcileLoop log2q (lastDayInLoop - startDate + 1).toNat s startDate

-- ### Route handlers that trigger the engine (C5 sources)

/-- An invocation of the scoring engine by a route handler: a Composer
call for a date, or a Reconciler call from a start date. -/
inductive EngineCall where
  | compose (d : ℤ)
  | reconcileFrom (d : ℤ)
  deriving Repr, DecidableEq

/-- `Date.UTC()` called with no arguments, as in the
`new Date(Date.UTC(/* ... */))` line of the habit-uncompletion handler:
per ECMA-262 it returns `NaN`, so the resulting `Date` is invalid and its
`toISOString()` throws a `RangeError`.  `none` models the absence of a
usable timestamp. -/
def jsDateUTCNoArgs : Option ℤ :=
  none

/-- Scoring-engine invocations of `PUT /api/daily-status/:date`
(`server.js`): after upserting the rest-day flag the handler awaits
`recalculateDailyScore(date)` and responds; it never calls
`recalculateStreaksForward`. -/
def putDailyStatusEngineCalls (d : ℤ) : List EngineCall :=
  [EngineCall.compose d]

/-- Scoring-engine invocations of `PUT /api/tasks/:id`
(`backend/routes/tasks.js`): when the updated task still exists, the
handler awaits `recalculateDailyScore(taskDate)` and then
`recalculateStreaksForward(nextDayStr)` with `nextDayStr` the day after
the task's `target_date`; with no task row it calls neither. -/
def putTaskEngineCalls (targetDateOfTask : Option ℤ) : List EngineCall :=
  match targetDateOfTask with
  | some taskDate => [EngineCall.compose taskDate, EngineCall.reconcileFrom (taskDate + 1)]
  | none => []

/-- Scoring-engine invocations of `DELETE /api/habits/:id/complete`
(`backend/routes/habits.js`) after a completion row was deleted, paired
with whether the handler finishes successfully: it awaits
`recalculateDailyScore(date)`, then builds the next-day string from
`new Date(Date.UTC(/* ... */))` — `Date.UTC()` with no arguments — whose
`toISOString()` throws before `recalculateStreaksForward` can be
invoked, so control jumps to the `catch` block (`false` = 500 response). -/
def deleteHabitCompletionEngineCalls (d : ℤ) : List EngineCall × Bool :=
  match jsDateUTCNoArgs with
  | none => ([EngineCall.compose d], false)
  | some t => ([EngineCall.compose d, EngineCall.reconcileFrom (t + 1)], true)

-- ### Basic lemmas about the table operations

theorem alookup_aupsert_self {V : Type} (l : List (ℤ × V)) (k : ℤ) (v : V) :
    alookup (aupsert l k v) k = some v := by
  induction l with
  | nil => simp [alookup, aupsert]
  | cons p t ih =>
    obtain ⟨a, b⟩ := p
    by_cases h : a = k
    · simp [alookup, aupsert, h]
    · simp [alookup, aupsert, h, ih]

theorem alookup_aupsert_ne {V : Type} (l : List (ℤ × V)) (k : ℤ) (v : V) (k' : ℤ)
    (h : k' ≠ k) : alookup (aupsert l k v) k' = alookup l k' := by
  have hk : ¬ (k = k') := fun hh => h hh.symm
  induction l with
  | nil => simp [alookup, aupsert, hk]
  | cons p t ih =>
    obtain ⟨a, b⟩ := p
    by_cases ha : a = k
    · subst ha
      simp [alookup, aupsert, hk]
    · simp only [aupsert, beq_iff_eq, ha, if_false, alookup]
      by_cases ha' : a = k'
      · simp [ha']
      · simp [ha', ih]

theorem aupsert_eq_of_lookup {V : Type} (l : List (ℤ × V)) (k : ℤ) (v : V)
    (h : alookup l k = some v) : aupsert l k v = l := by
  induction l with
  | nil => simp [alookup] at h
  | cons p t ih =>
    obtain ⟨a, b⟩ := p
    by_cases ha : a = k
    · simp [alookup, ha] at h
      simp [aupsert, ha, h]
    · simp [alookup, ha] at h
      simp [aupsert, ha, ih h]

theorem alookup_aupdate_self {V : Type} (l : List (ℤ × V)) (k : ℤ) (f : V → V) :
    alookup (aupdate l k f) k = (alookup l k).map f := by
  induction l with
  | nil => simp [alookup, aupdate]
  | cons p t ih =>
    obtain ⟨a, b⟩ := p
    by_cases h : a = k
    · simp [alookup, aupdate, h]
    · simp [alookup, aupdate, h, ih]

theorem alookup_aupdate_ne {V : Type} (l : List (ℤ × V)) (k : ℤ) (f : V → V) (k' : ℤ)
    (h : k' ≠ k) : alookup (aupdate l k f) k' = alookup l k' := by
  have hk : ¬ (k = k') := fun hh => h hh.symm
  induction l with
  | nil => simp [alookup, aupdate]
  | cons p t ih =>
    obtain ⟨a, b⟩ := p
    by_cases ha : a = k
    · subst ha
      simp [alookup, aupdate, hk]
    · simp only [aupdate, beq_iff_eq, ha, if_false, alookup]
      by_cases ha' : a = k'
      · simp [ha']
      · simp [ha', ih]

theorem map_fst_aupdate {V : Type} (l : List (ℤ × V)) (k : ℤ) (f : V → V) :
    (aupdate l k f).map Prod.fst = l.map Prod.fst := by
  induction l with
  | nil => simp [aupdate]
  | cons p t ih =>
    obtain ⟨a, b⟩ := p
    by_cases h : a = k
    · simp [aupdate, h]
    · simp [aupdate, h, ih]

theorem mem_aupdate_of_lookup {V : Type} {l : List (ℤ × V)} {k : ℤ} {row : V}
    (f : V → V) (h : alookup l k = some row) :
    ∀ p ∈ aupdate l k f, p ∈ l ∨ p = (k, f row) := by
  induction l with
  | nil => simp [aupdate]
  | cons q t ih =>
    obtain ⟨a, b⟩ := q
    by_cases ha : a = k
    · simp [alookup, ha] at h
      subst ha h
      intro p hp
      simp [aupdate] at hp
      rcases hp with hp | hp
      · right
        simp [hp]
      · left
        simp [hp]
    · simp [alookup, ha] at h
      intro p hp
      simp [aupdate, ha] at hp
      rcases hp with hp | hp
      · left
        simp [hp]
      · rcases ih h p hp with h1 | h1
        · left
          simp [h1]
        · right
          exact h1

theorem alookup_upsertDaily_ne (l : List (ℤ × ScoreRow)) (k : ℤ) (x : ScoreData) (k' : ℤ)
    (h : k' ≠ k) : alookup (upsertDaily l k x) k' = alookup l k' := by
  have hk : ¬ (k = k') := fun hh => h hh.symm
  induction l with
  | nil => simp [alookup, upsertDaily, hk]
  | cons p t ih =>
    obtain ⟨a, r⟩ := p
    by_cases ha : a = k
    · subst ha
      simp [alookup, upsertDaily, hk]
    · simp only [upsertDaily, beq_iff_eq, ha, if_false, alookup]
      by_cases ha' : a = k'
      · simp [ha']
      · simp [ha', ih]

theorem alookup_upsertDaily_of_some (l : List (ℤ × ScoreRow)) (k : ℤ) (x : ScoreData)
    (r : ScoreRow) (h : alookup l k = some r) :
    alookup (upsertDaily l k x) k = some (x.toRow r.notes) := by
  induction l with
  | nil => simp [alookup] at h
  | cons p t ih =>
    obtain ⟨a, b⟩ := p
    by_cases ha : a = k
    · simp [alookup, ha] at h
      simp [alookup, upsertDaily, ha, h]
    · simp [alookup, ha] at h
      simp [alookup, upsertDaily, ha, ih h]

theorem alookup_upsertDaily_of_none (l : List (ℤ × ScoreRow)) (k : ℤ) (x : ScoreData)
    (h : alookup l k = none) :
    alookup (upsertDaily l k x) k = some (x.toRow "") := by
  induction l with
  | nil => simp [alookup, upsertDaily]
  | cons p t ih =>
    obtain ⟨a, b⟩ := p
    by_cases ha : a = k
    · simp [alookup, ha] at h
    · simp [alookup, ha] at h
      simp [alookup, upsertDaily, ha, ih h]

theorem upsertDaily_eq_of_lookup (l : List (ℤ × ScoreRow)) (k : ℤ) (x : ScoreData)
    (r : ScoreRow) (h : alookup l k = some r) (hx : x.toRow r.notes = r) :
    upsertDaily l k x = l := by
  induction l with
  | nil => simp [alookup] at h
  | cons p t ih =>
    obtain ⟨a, b⟩ := p
    by_cases ha : a = k
    · simp [alookup, ha] at h
      subst h
      simp [upsertDaily, ha, hx]
    · simp [alookup, ha] at h
      simp [upsertDaily, ha, ih h]

theorem alookup_aupdate_none {V : Type} (l : List (ℤ × V)) (k : ℤ) (f : V → V) (k' : ℤ)
    (h : alookup l k' = none) : alookup (aupdate l k f) k' = none := by
  by_cases hk : k' = k
  · subst hk
    rw [alookup_aupdate_self, h]
    rfl
  · rw [alookup_aupdate_ne l k f k' hk, h]

theorem mem_upsertDaily (l : List (ℤ × ScoreRow)) (k : ℤ) (x : ScoreData) :
    ∀ p ∈ upsertDaily l k x, p ∈ l ∨ ∃ notes, p.2 = x.toRow notes := by
  induction l with
  | nil =>
    intro p hp
    simp [upsertDaily] at hp
    exact Or.inr ⟨"", by simp [hp]⟩
  | cons q t ih =>
    obtain ⟨a, r⟩ := q
    intro p hp
    by_cases ha : a = k
    · simp [upsertDaily, ha] at hp
      rcases hp with hp | hp
      · exact Or.inr ⟨r.notes, by simp [hp]⟩
      · exact Or.inl (List.mem_cons_of_mem _ hp)
    · simp only [upsertDaily, beq_iff_eq, ha, if_false, List.mem_cons] at hp
      rcases hp with hp | hp
      · exact Or.inl (by simp [hp])
      · rcases ih p hp with h1 | h1
        · exact Or.inl (List.mem_cons_of_mem _ h1)
        · exact Or.inr h1

-- ### Analysis of the Reconciler loop

/-- A date is *settled* in a store when the stored streak and bonus for
it already agree with what one Reconciler pass over it would compute:
the `StreakData` row holds the transition's new streak, and the stored
bonus equals the recomputed bonus.  Dates without a `DailyScores` row are
vacuously settled (the loop skips them). -/
def dayConsistent (log2q : ℚ → ℚ) (s : Store) (d : ℤ) : Prop :=
  ∀ row, alookup s.dailyScores d = some row →
    alookup s.streakData d = some (reconcilerTransition s d row).1 ∧
    row.streak_bonus_component = reconcilerBonus log2q (reconcilerTransition s d row).2

theorem reconcileStep_skip (log2q : ℚ → ℚ) (s : Store) (d : ℤ)
    (h : alookup s.dailyScores d = none) : reconcileStep log2q s d = (s, []) := by
  simp [reconcileStep, h]

theorem reconcileStep_of_eqBonus (log2q : ℚ → ℚ) (s : Store) (d : ℤ) (row : ScoreRow)
    (hd : alookup s.dailyScores d = some row)
    (hb : reconcilerBonus log2q (reconcilerTransition s d row).2 = row.streak_bonus_component) :
    reconcileStep log2q s d =
      ({ s with streakData := aupsert s.streakData d (reconcilerTransition s d row).1 },
        [DbWrite.streak d (reconcilerTransition s d row).1]) := by
  simp only [reconcileStep, hd]
  rw [if_pos hb]

theorem reconcileStep_of_neBonus (log2q : ℚ → ℚ) (s : Store) (d : ℤ) (row : ScoreRow)
    (hd : alookup s.dailyScores d = some row)
    (hb : ¬ reconcilerBonus log2q (reconcilerTransition s d row).2 = row.streak_bonus_component) :
    reconcileStep log2q s d =
      ( { dailyScores := aupdate s.dailyScores d (fun r =>
            { r with
              streak_bonus_component := reconcilerBonus log2q (reconcilerTransition s d row).2
              total_daily_score := reconcilerBaseScore row +
                reconcilerBonus log2q (reconcilerTransition s d row).2 })
          streakData := aupsert s.streakData d (reconcilerTransition s d row).1 }
      , [DbWrite.streak d (reconcilerTransition s d row).1,
          DbWrite.dailyBonus d (reconcilerBonus log2q (reconcilerTransition s d row).2)
            (reconcilerBaseScore row + reconcilerBonus log2q (reconcilerTransition s d row).2)]) := by
  simp only [reconcileStep, hd]
  rw [if_neg hb]

theorem reconcileStep_frame (log2q : ℚ → ℚ) (s : Store) (d k : ℤ) (h : k ≠ d) :
    alookup ((reconcileStep log2q s d).1).dailyScores k = alookup s.dailyScores k ∧
    alookup ((reconcileStep log2q s d).1).streakData k = alookup s.streakData k := by
  rcases hd : alookup s.dailyScores d with _ | row
  · simp [reconcileStep, hd]
  · simp only [reconcileStep, hd]
    by_cases hb : reconcilerBonus log2q (reconcilerTransition s d row).2 =
        row.streak_bonus_component
    · simp only [hb, if_pos rfl]
      exact ⟨rfl, alookup_aupsert_ne _ _ _ _ h⟩
    · simp only [if_neg hb]
      exact ⟨alookup_aupdate_ne _ _ _ _ h, alookup_aupsert_ne _ _ _ _ h⟩

theorem reconcileStep_map_fst (log2q : ℚ → ℚ) (s : Store) (d : ℤ) :
    ((reconcileStep log2q s d).1).dailyScores.map Prod.fst = s.dailyScores.map Prod.fst := by
  rcases hd : alookup s.dailyScores d with _ | row
  · simp [reconcileStep, hd]
  · simp only [reconcileStep, hd]
    by_cases hb : reconcilerBonus log2q (reconcilerTransition s d row).2 =
        row.streak_bonus_component
    · simp [hb]
    · simp [if_neg hb, map_fst_aupdate]

theorem reconcileStep_daily_none (log2q : ℚ → ℚ) (s : Store) (d dd : ℤ)
    (h : alookup s.dailyScores dd = none) :
    alookup ((reconcileStep log2q s d).1).dailyScores dd = none := by
  rcases hd : alookup s.dailyScores d with _ | row
  · simp [reconcileStep, hd, h]
  · simp only [reconcileStep, hd]
    by_cases hb : reconcilerBonus log2q (reconcilerTransition s d row).2 =
        row.streak_bonus_component
    · simp [hb, h]
    · simp [if_neg hb, alookup_aupdate_none _ _ _ _ h]

theorem dayConsistent_congr (log2q : ℚ → ℚ) (s s' : Store) (d : ℤ)
    (hd : alookup s'.dailyScores d = alookup s.dailyScores d)
    (hp : alookup s'.streakData (d - 1) = alookup s.streakData (d - 1))
    (hs : alookup s'.streakData d = alookup s.streakData d)
    (h : dayConsistent log2q s d) : dayConsistent log2q s' d := by
  intro row hrow
  rw [hd] at hrow
  have htr : reconcilerTransition s' d row = reconcilerTransition s d row := by
    simp [reconcilerTransition, reconcilerPrevStreak, hp]
  obtain ⟨h1, h2⟩ := h row hrow
  rw [htr, hs]
  exact ⟨h1, h2⟩

theorem reconcileStep_settles (log2q : ℚ → ℚ) (s : Store) (d : ℤ) :
    dayConsistent log2q ((reconcileStep log2q s d).1) d := by
  rcases hd : alookup s.dailyScores d with _ | row
  · intro row' hrow'
    rw [reconcileStep_skip log2q s d hd] at hrow'
    rw [hd] at hrow'
    cases hrow'
  · have hne : (d : ℤ) - 1 ≠ d := by omega
    by_cases hb : reconcilerBonus log2q (reconcilerTransition s d row).2 =
        row.streak_bonus_component
    · rw [reconcileStep_of_eqBonus log2q s d row hd hb]
      intro row' hrow'
      simp only at hrow'
      rw [hd] at hrow'
      cases hrow'
      have htr : reconcilerTransition
          { s with streakData := aupsert s.streakData d (reconcilerTransition s d row).1 } d row
          = reconcilerTransition s d row := by
        simp [reconcilerTransition, reconcilerPrevStreak, alookup_aupsert_ne _ _ _ _ hne]
      rw [htr]
      exact ⟨alookup_aupsert_self _ _ _, hb.symm⟩
    · rw [reconcileStep_of_neBonus log2q s d row hd hb]
      intro row' hrow'
      simp only at hrow'
      rw [alookup_aupdate_self, hd] at hrow'
      simp only [Option.map_some', Option.some_inj] at hrow'
      have hbase : reconcilerBaseScore row' = reconcilerBaseScore row := by
        rw [← hrow']
        simp [reconcilerBaseScore]
      have hrest : row'.is_manually_marked_rest_day = row.is_manually_marked_rest_day := by
        rw [← hrow']
      have hbonus : row'.streak_bonus_component =
          reconcilerBonus log2q (reconcilerTransition s d row).2 := by
        rw [← hrow']
      have htr : ∀ t : Store, alookup t.streakData (d - 1) = alookup s.streakData (d - 1) →
          reconcilerTransition t d row' = reconcilerTransition s d row := by
        intro t ht
        simp [reconcilerTransition, reconcilerPrevStreak, ht, hbase, hrest]
      rw [htr _ (alookup_aupsert_ne _ _ _ _ hne)]
      exact ⟨alookup_aupsert_self _ _ _, hbonus⟩

theorem reconcileStep_of_consistent (log2q : ℚ → ℚ) (s : Store) (d : ℤ)
    (h : dayConsistent log2q s d) :
    (reconcileStep log2q s d).1 = s ∧
    ∀ w ∈ (reconcileStep log2q s d).2,
      ∃ dd v, w = DbWrite.streak dd v ∧ alookup s.streakData dd = some v := by
  rcases hd : alookup s.dailyScores d with _ | row
  · rw [reconcileStep_skip log2q s d hd]
    exact ⟨rfl, by simp⟩
  · obtain ⟨h1, h2⟩ := h row hd
    rw [reconcileStep_of_eqBonus log2q s d row hd h2.symm]
    refine ⟨?_, ?_⟩
    · show ({ s with streakData := aupsert s.streakData d (reconcilerTransition s d row).1 } :
        Store) = s
      rw [aupsert_eq_of_lookup _ _ _ h1]
    · intro w hw
      simp only [List.mem_singleton] at hw
      subst hw
      exact ⟨d, (reconcilerTransition s d row).1, rfl, h1⟩

theorem reconcileLoop_lookup_lt (log2q : ℚ → ℚ) :
    ∀ (n : ℕ) (d k : ℤ) (s : Store), k < d →
      alookup ((reconcileLoop log2q n s d).1).dailyScores k = alookup s.dailyScores k ∧
      alookup ((reconcileLoop log2q n s d).1).streakData k = alookup s.streakData k := by
  intro n
  induction n with
  | zero =>
    intro d k s h
    simp [reconcileLoop]
  | succ n ih =>
    intro d k s h
    have hne : k ≠ d := by omega
    have h1 := reconcileStep_frame log2q s d k hne
    have h2 := ih (d + 1) k (reconcileStep log2q s d).1 (by omega)
    simp only [reconcileLoop]
    exact ⟨h2.1.trans h1.1, h2.2.trans h1.2⟩

theorem reconcileLoop_map_fst (log2q : ℚ → ℚ) :
    ∀ (n : ℕ) (d : ℤ) (s : Store),
      ((reconcileLoop log2q n s d).1).dailyScores.map Prod.fst =
        s.dailyScores.map Prod.fst := by
  intro n
  induction n with
  | zero =>
    intro d s
    simp [reconcileLoop]
  | succ n ih =>
    intro d s
    simp only [reconcileLoop]
    exact (ih (d + 1) (reconcileStep log2q s d).1).trans (reconcileStep_map_fst log2q s d)

theorem reconcileLoop_twice (log2q : ℚ → ℚ) :
    ∀ (n : ℕ) (d : ℤ) (s : Store),
      (reconcileLoop log2q n ((reconcileLoop log2q n s d).1) d).1 =
        (reconcileLoop log2q n s d).1 ∧
      ∀ w ∈ (reconcileLoop log2q n ((reconcileLoop log2q n s d).1) d).2,
        ∃ dd v, w = DbWrite.streak dd v ∧
          alookup ((reconcileLoop log2q n s d).1).streakData dd = some v := by
  intro n
  induction n with
  | zero =>
    intro d s
    simp [reconcileLoop]
  | succ n ih =>
    intro d s
    have hsa : dayConsistent log2q ((reconcileStep log2q s d).1) d :=
      reconcileStep_settles log2q s d
    have hfr := reconcileLoop_lookup_lt log2q n (d + 1)
    have hs1C : dayConsistent log2q
        ((reconcileLoop log2q n ((reconcileStep log2q s d).1) (d + 1)).1) d := by
      refine dayConsistent_congr log2q ((reconcileStep log2q s d).1) _ d ?_ ?_ ?_ hsa
      · exact (hfr d ((reconcileStep log2q s d).1) (by omega)).1
      · exact (hfr (d - 1) ((reconcileStep log2q s d).1) (by omega)).2
      · exact (hfr d ((reconcileStep log2q s d).1) (by omega)).2
    have hstep := reconcileStep_of_consistent log2q _ d hs1C
    have hIH := ih (d + 1) ((reconcileStep log2q s d).1)
    constructor
    · show (reconcileLoop log2q n
          ((reconcileStep log2q ((reconcileLoop log2q (n + 1) s d).1) d).1) (d + 1)).1 =
        (reconcileLoop log2q (n + 1) s d).1
      simp only [reconcileLoop] at hstep ⊢
      rw [hstep.1]
      exact hIH.1
    · intro w hw
      simp only [reconcileLoop, List.mem_append] at hw
      rcases hw with hw | hw
      · have := hstep.2 w (by
          simpa only [reconcileLoop] using hw)
        simpa only [reconcileLoop] using this
      · have hw' := hw
        simp only [reconcileLoop] at hstep
        rw [hstep.1] at hw'
        have := hIH.2 w hw'
        simpa only [reconcileLoop] using this

theorem reconcileLoop_missing_day (log2q : ℚ → ℚ) :
    ∀ (n : ℕ) (d dd : ℤ) (s : Store), alookup s.dailyScores dd = none →
      alookup ((reconcileLoop log2q n s d).1).dailyScores dd = none ∧
      alookup ((reconcileLoop log2q n s d).1).streakData dd = alookup s.streakData dd := by
  intro n
  induction n with
  | zero =>
    intro d dd s h
    simp [reconcileLoop, h]
  | succ n ih =>
    intro d dd s h
    simp only [reconcileLoop]
    by_cases hdd : d = dd
    · subst hdd
      rw [reconcileStep_skip log2q s d h]
      exact ih (d + 1) d s h
    · have hstep := ih (d + 1) dd (reconcileStep log2q s d).1
        (reconcileStep_daily_none log2q s d dd h)
      refine ⟨hstep.1, hstep.2.trans ?_⟩
      exact (reconcileStep_frame log2q s d dd (fun hh => hdd hh.symm)).2

-- ### The total-score invariant (C7) and the frame projection (C10)

/-- The `DailyScoreRecord` invariant of the data model:
`totalScore = habitComponent*0.45 + taskComponent*0.45 + timeComponent*0.1
+ streakBonusComponent`, read off the same stored row. -/
def scoreInvariant (r : ScoreRow) : Prop :=
  r.total_daily_score =
    r.habit_score_component * 0.45 + r.task_score_component * 0.45 +
      r.time_score_component * 0.1 + r.streak_bonus_component

theorem reconcileStep_inv (log2q : ℚ → ℚ) (s : Store) (d : ℤ)
    (h : ∀ p ∈ s.dailyScores, scoreInvariant p.2) :
    ∀ p ∈ ((reconcileStep log2q s d).1).dailyScores, scoreInvariant p.2 := by
  rcases hd : alookup s.dailyScores d with _ | row
  · rw [reconcileStep_skip log2q s d hd]
    exact h
  · by_cases hb : reconcilerBonus log2q (reconcilerTransition s d row).2 =
        row.streak_bonus_component
    · rw [reconcileStep_of_eqBonus log2q s d row hd hb]
      exact h
    · rw [reconcileStep_of_neBonus log2q s d row hd hb]
      intro p hp
      rcases mem_aupdate_of_lookup _ hd p hp with hmem | heq
      · exact h p hmem
      · rw [heq]
        show scoreInvariant
          { row with
            streak_bonus_component := reconcilerBonus log2q (reconcilerTransition s d row).2
            total_daily_score := reconcilerBaseScore row +
              reconcilerBonus log2q (reconcilerTransition s d row).2 }
        simp only [scoreInvariant, reconcilerBaseScore]

theorem reconcileLoop_inv (log2q : ℚ → ℚ) :
    ∀ (n : ℕ) (d : ℤ) (s : Store), (∀ p ∈ s.dailyScores, scoreInvariant p.2) →
      ∀ p ∈ ((reconcileLoop log2q n s d).1).dailyScores, scoreInvariant p.2 := by
  intro n
  induction n with
  | zero =>
    intro d s h
    simpa [reconcileLoop] using h
  | succ n ih =>
    intro d s h
    simp only [reconcileLoop]
    exact ih (d + 1) (reconcileStep log2q s d).1 (reconcileStep_inv log2q s d h)

/-- The columns of a `DailyScores` row that the Reconciler's
`UPDATE … SET streak_bonus_component = ?, total_daily_score = ?` never
touches: the three base components, the rest-day flag, and `notes`. -/
def rowBase (r : ScoreRow) : ℚ × ℚ × ℚ × Bool × String :=
  (r.habit_score_component, r.task_score_component, r.time_score_component,
    r.is_manually_marked_rest_day, r.notes)

theorem reconcileStep_rowBase (log2q : ℚ → ℚ) (s : Store) (d : ℤ) (k : ℤ) :
    (alookup ((reconcileStep log2q s d).1).dailyScores k).map rowBase =
      (alookup s.dailyScores k).map rowBase := by
  rcases hd : alookup s.dailyScores d with _ | row
  · rw [reconcileStep_skip log2q s d hd]
  · by_cases hb : reconcilerBonus log2q (reconcilerTransition s d row).2 =
        row.streak_bonus_component
    · rw [reconcileStep_of_eqBonus log2q s d row hd hb]
    · rw [reconcileStep_of_neBonus log2q s d row hd hb]
      by_cases hk : k = d
      · subst hk
        show (alookup (aupdate s.dailyScores k _) k).map rowBase = _
        rw [alookup_aupdate_self, hd]
        rfl
      · show (alookup (aupdate s.dailyScores d _) k).map rowBase = _
        rw [alookup_aupdate_ne _ _ _ _ hk]

theorem reconcileLoop_rowBase (log2q : ℚ → ℚ) :
    ∀ (n : ℕ) (d : ℤ) (s : Store) (k : ℤ),
      (alookup ((reconcileLoop log2q n s d).1).dailyScores k).map rowBase =
        (alookup s.dailyScores k).map rowBase := by
  intro n
  induction n with
  | zero =>
    intro d s k
    simp [reconcileLoop]
  | succ n ih =>
    intro d s k
    simp only [reconcileLoop]
    exact (ih (d + 1) (reconcileStep log2q s d).1 k).trans
      (reconcileStep_rowBase log2q s d k)

-- ### Composer idempotence machinery (C9)

theorem aupsert_idem {V : Type} (l : List (ℤ × V)) (k : ℤ) (v : V) :
    aupsert (aupsert l k v) k v = aupsert l k v :=
  aupsert_eq_of_lookup _ _ _ (alookup_aupsert_self l k v)

theorem upsertDaily_idem (l : List (ℤ × ScoreRow)) (k : ℤ) (x : ScoreData) :
    upsertDaily (upsertDaily l k x) k x = upsertDaily l k x := by
  rcases hd : alookup l k with _ | r
  · exact upsertDaily_eq_of_lookup _ _ _ _ (alookup_upsertDaily_of_none l k x hd) rfl
  · exact upsertDaily_eq_of_lookup _ _ _ _ (alookup_upsertDaily_of_some l k x r hd) rfl

theorem recalc_daily_lookup_self (log2q : ℚ → ℚ) (env : Env) (s : Store) (d : ℤ) :
    alookup ((recalculateDailyScore log2q env s d).1).dailyScores d =
      some ((scoreDataForDb log2q env s d).toRow
        (match alookup s.dailyScores d with | some r => r.notes | none => "")) := by
  rcases hd : alookup s.dailyScores d with _ | r
  · exact alookup_upsertDaily_of_none _ _ _ hd
  · exact alookup_upsertDaily_of_some _ _ _ _ hd

theorem composerIsRestDay_after (log2q : ℚ → ℚ) (env : Env) (s : Store) (d : ℤ) :
    composerIsRestDay ((recalculateDailyScore log2q env s d).1) d = composerIsRestDay s d := by
  have h := recalc_daily_lookup_self log2q env s d
  simp [composerIsRestDay, h, ScoreData.toRow, scoreDataForDb]

theorem composerPrevStreak_after (log2q : ℚ → ℚ) (env : Env) (s : Store) (d : ℤ) :
    composerPrevStreak ((recalculateDailyScore log2q env s d).1) d = composerPrevStreak s d := by
  have hne : (d : ℤ) - 1 ≠ d := by omega
  have hS : ((recalculateDailyScore log2q env s d).1).streakData =
      aupsert s.streakData d (composerTransition env s d).1 := rfl
  simp [composerPrevStreak, hS, alookup_aupsert_ne _ _ _ _ hne]

theorem composerTransition_after (log2q : ℚ → ℚ) (env : Env) (s : Store) (d : ℤ) :
    composerTransition env ((recalculateDailyScore log2q env s d).1) d =
      composerTransition env s d := by
  unfold composerTransition
  rw [composerIsRestDay_after, composerPrevStreak_after]

theorem scoreDataForDb_after (log2q : ℚ → ℚ) (env : Env) (s : Store) (d : ℤ) :
    scoreDataForDb log2q env ((recalculateDailyScore log2q env s d).1) d =
      scoreDataForDb log2q env s d := by
  unfold scoreDataForDb
  rw [composerTransition_after, composerIsRestDay_after]

-- ### Concrete example data used by witnesses and counterexamples

/-- A constant stand-in for the float `log2` routine, used to evaluate
the engine on concrete inputs. -/
def log2one : ℚ → ℚ := fun _ => 1

/-- A stored `DailyScores` row whose components are all zero. -/
def zeroRow : ScoreRow :=
  { habit_score_component := 0, task_score_component := 0, time_score_component := 0,
    streak_bonus_component := 0, total_daily_score := 0,
    is_manually_marked_rest_day := false, notes := "" }

/-- An empty store (no scored days, no streak rows). -/
def emptyStore : Store := { dailyScores := [], streakData := [] }

/-- An empty source environment (no tasks, habit completions or time logs). -/
def emptyEnv : Env := { tasks := [], habitCompletions := [], timeLogs := [] }

/-- A store with exactly one scored day (date `0`). -/
def oneDayStore : Store := { dailyScores := [(0, zeroRow)], streakData := [] }

/-- A store whose history has scored days `0` and `2` but no
`DailyScoreRecord` for the in-range day `1`. -/
def gapStore : Store := { dailyScores := [(0, zeroRow), (2, zeroRow)], streakData := [] }

/-- An environment with one task for date `5` that is done but not
assigned (so `assigned = 0`, `completed = 1` on date `5`). -/
def doneTaskEnv : Env :=
  { tasks := [{ target_date := 5, is_done := true, is_assigned := false }]
    habitCompletions := [], timeLogs := [] }

-- ### Claim theorems

/-- C1: the Composer (`recalculateDailyScore` step 5) and the Reconciler
(`recalculateStreaksForward` step 3) apply one and the same streak
transition: on a rest day the stored streak and the bonus basis both
equal the previous day's streak; otherwise with base score `≥ 60`
(exactly `60` qualifies) both equal the previous streak plus one;
otherwise both are `0`.  Both paths store the transition's first
component as the day's new streak. -/
theorem c1_streak_transition_shared (isRest : Bool) (base : ℚ) (prev : ℕ) :
    composerStreakLogic isRest base prev = reconcilerStreakLogic isRest base prev ∧
    composerStreakLogic isRest base prev =
      (if isRest then (prev, prev) else if 60 ≤ base then (prev + 1, prev + 1) else (0, 0)) ∧
    composerStreakLogic false 60 prev = (prev + 1, prev + 1) ∧
    (∀ (log2q : ℚ → ℚ) (env : Env) (s : Store) (d : ℤ),
      alookup ((recalculateDailyScore log2q env s d).1).streakData d =
        some (composerTransition env s d).1) ∧
    (∀ (log2q : ℚ → ℚ) (s : Store) (d : ℤ) (row : ScoreRow),
      alookup s.dailyScores d = some row →
        alookup ((reconcileStep log2q s d).1).streakData d =
          some (reconcilerTransition s d row).1) := by
  refine ⟨rfl, ?_, by norm_num [composerStreakLogic], ?_, ?_⟩
  · by_cases h : isRest <;> by_cases h2 : 60 ≤ base <;>
      simp [composerStreakLogic, h, h2]
  · intro log2q env s d
    exact alookup_aupsert_self _ _ _
  · intro log2q s d row hd
    by_cases hb : reconcilerBonus log2q (reconcilerTransition s d row).2 =
        row.streak_bonus_component
    · rw [reconcileStep_of_eqBonus log2q s d row hd hb]
      exact alookup_aupsert_self _ _ _
    · rw [reconcileStep_of_neBonus log2q s d row hd hb]
      exact alookup_aupsert_self _ _ _

/-- C1 witness: the transition evaluated at the threshold (`base = 60`,
previous streak `2`), and the stored-streak facts instantiated on
`oneDayStore` at date `0` (whose zero row resets the streak to `0`). -/
theorem c1_streak_transition_shared_witness :
    composerStreakLogic false 60 2 = (3, 3) ∧
    alookup ((recalculateDailyScore log2one emptyEnv oneDayStore 0).1).streakData 0 =
      some (composerTransition emptyEnv oneDayStore 0).1 ∧
    alookup ((reconcileStep log2one oneDayStore 0).1).streakData 0 =
      some (reconcilerTransition oneDayStore 0 zeroRow).1 := by
  refine ⟨by decide, ?_, ?_⟩
  · exact (c1_streak_transition_shared false 60 2).2.2.2.1 log2one emptyEnv oneDayStore 0
  · exact (c1_streak_transition_shared false 60 2).2.2.2.2 log2one oneDayStore 0 zeroRow
      (by decide)

/-- C8: with `0` assigned tasks for a date, `calculateTaskScore` returns
the completed count when positive and `0` when nothing was completed. -/
theorem c8_zero_assigned (env : Env) (d : ℤ) (h : numAssigned env d = 0) :
    calculateTaskScore env d =
      (if 0 < numCompleted env d then (numCompleted env d : ℚ) else 0) := by
  simp [calculateTaskScore, h]

/-- C8 witness: one done-but-unassigned task on date `5` gives
`assigned = 0`, `completed = 1`, and task score `1`. -/
theorem c8_zero_assigned_witness :
    numAssigned doneTaskEnv 5 = 0 ∧
    calculateTaskScore doneTaskEnv 5 =
      (if 0 < numCompleted doneTaskEnv 5 then (numCompleted doneTaskEnv 5 : ℚ) else 0) ∧
    calculateTaskScore doneTaskEnv 5 = 1 :=
  ⟨by decide, c8_zero_assigned doneTaskEnv 5 (by decide), by decide⟩

/-- The older `calculateTaskScore` copy disagrees at
`assigned = 0, completed = 0`: it yields `1` where the live copy yields
`0` (the "open ambiguity" of the spec). -/
theorem calculateTaskScoreVariant_diverges :
    calculateTaskScoreVariant emptyEnv 0 = 1 ∧ calculateTaskScore emptyEnv 0 = 0 := by
  decide

/-- C5 counterexample: toggling the rest-day flag of date `0` runs only
the Composer for `0`; the required `reconcileStreaksForward` call from
day `1` is absent from the handler's engine invocations. -/
theorem c5_counterexample :
    putDailyStatusEngineCalls 0 = [EngineCall.compose 0] ∧
    EngineCall.reconcileFrom 1 ∉ putDailyStatusEngineCalls 0 := by
  refine ⟨rfl, ?_⟩
  simp [putDailyStatusEngineCalls]

/-- C5 (amended): only the task-update route reaches
`recalculateStreaksForward` (from the day after the task's target date).
The rest-day toggle route invokes only the Composer, and the
habit-uncompletion route crashes computing its next-day string
(`Date.UTC()` with no arguments) after the Composer call, so its
reconciliation is never invoked and the request fails. -/
theorem c5_amended (d t : ℤ) :
    putTaskEngineCalls (some t) = [EngineCall.compose t, EngineCall.reconcileFrom (t + 1)] ∧
    putDailyStatusEngineCalls d = [EngineCall.compose d] ∧
    deleteHabitCompletionEngineCalls d = ([EngineCall.compose d], false) ∧
    (∀ e : ℤ, EngineCall.reconcileFrom e ∉ putDailyStatusEngineCalls d) ∧
    (∀ e : ℤ, EngineCall.reconcileFrom e ∉ (deleteHabitCompletionEngineCalls d).1) := by
  refine ⟨rfl, rfl, rfl, ?_, ?_⟩ <;>
    intro e <;>
    simp [putDailyStatusEngineCalls, deleteHabitCompletionEngineCalls, jsDateUTCNoArgs]

/-- C4 counterexample: on the empty store, if the `StreakData` write of
`recalculateDailyScore(0)` fails, the call reports an error yet the
`DailyScores` table has already been changed — the upsert pair is not
atomic and the state is not unchanged on error. -/
theorem c4_counterexample :
    (recalculateDailyScoreFallible log2one emptyEnv false true emptyStore 0).2 = none ∧
    (recalculateDailyScoreFallible log2one emptyEnv false true emptyStore 0).1.dailyScores ≠
      emptyStore.dailyScores := by
  decide

/-- C4 (amended): the Composer's two table writes are sequential
`await`s with no transaction.  If the `DailyScores` write fails nothing
has changed, but if the `StreakData` write fails the already-performed
`DailyScores` upsert persists while `StreakData` is untouched and the
call propagates an error; only with both writes succeeding does it
behave as the pure Composer. -/
theorem c4_amended (log2q : ℚ → ℚ) (env : Env) (s : Store) (d : ℤ) :
    (∀ b : Bool, recalculateDailyScoreFallible log2q env true b s d = (s, none)) ∧
    (recalculateDailyScoreFallible log2q env false true s d).1.dailyScores =
      upsertDaily s.dailyScores d (scoreDataForDb log2q env s d) ∧
    (recalculateDailyScoreFallible log2q env false true s d).1.streakData = s.streakData ∧
    (recalculateDailyScoreFallible log2q env false true s d).2 = none ∧
    recalculateDailyScoreFallible log2q env false false s d =
      ((recalculateDailyScore log2q env s d).1, some (recalculateDailyScore log2q env s d).2) := by
  refine ⟨?_, rfl, rfl, rfl, rfl⟩
  intro b
  rfl


/-- Concrete evaluation helper: processing a day whose stored row is
`zeroRow` (base score `0`, not a rest day, bonus `0`) resets the streak
to `0` and leaves the bonus unchanged, so only the `StreakData` upsert
happens. -/
theorem zeroRow_step (s : Store) (d : ℤ) (h : alookup s.dailyScores d = some zeroRow) :
    reconcileStep log2one s d =
      ({ s with streakData := aupsert s.streakData d 0 }, [DbWrite.streak d 0]) := by
  have hbase : reconcilerBaseScore zeroRow = 0 := by
    norm_num [reconcilerBaseScore, zeroRow]
  have h60 : ¬ (60 : ℚ) ≤ 0 := by norm_num
  have htr : reconcilerTransition s d zeroRow = (0, 0) := by
    have hrest : zeroRow.is_manually_marked_rest_day = false := rfl
    simp [reconcilerTransition, reconcilerStreakLogic, hrest, hbase, h60]
  have hb : reconcilerBonus log2one (reconcilerTransition s d zeroRow).2 =
      zeroRow.streak_bonus_component := by
    rw [htr]
    simp [reconcilerBonus, zeroRow]
  rw [reconcileStep_of_eqBonus log2one s d zeroRow h hb, htr]

/-- Concrete evaluation helper: the full Reconciler run on `gapStore`
from day `0`: day `0` is processed, the recordless day `1` is skipped,
day `2` is processed. -/
theorem gapStore_run :
    recalculateStreaksForward log2one gapStore 0 =
      ({ dailyScores := gapStore.dailyScores, streakData := [(0, 0), (2, 0)] },
        [DbWrite.streak 0 0, DbWrite.streak 2 0]) := by
  have hmax : maxDate gapStore.dailyScores = some 2 := by decide
  have hn : ((2 : ℤ) - 0 + 1).toNat = 0 + 1 + 1 + 1 := by decide
  simp only [recalculateStreaksForward, hmax]
  rw [if_neg (by decide : ¬ (2 : ℤ) < 0), hn]
  simp only [reconcileLoop]
  rw [zeroRow_step gapStore 0 (by decide)]
  dsimp only
  rw [reconcileStep_skip log2one _ (0 + 1) (by decide)]
  dsimp only
  rw [zeroRow_step _ (0 + 1 + 1) (by decide)]
  dsimp only
  decide

/-- Concrete evaluation helper: the Reconciler run on `oneDayStore` from
day `0` processes the single day `0`. -/
theorem oneDayStore_run :
    recalculateStreaksForward log2one oneDayStore 0 =
      ({ dailyScores := oneDayStore.dailyScores, streakData := [(0, 0)] },
        [DbWrite.streak 0 0]) := by
  have hmax : maxDate oneDayStore.dailyScores = some 0 := by decide
  have hn : ((0 : ℤ) - 0 + 1).toNat = 0 + 1 := by decide
  simp only [recalculateStreaksForward, hmax]
  rw [if_neg (by decide : ¬ (0 : ℤ) < 0), hn]
  simp only [reconcileLoop]
  rw [zeroRow_step oneDayStore 0 (by decide)]
  dsimp only
  decide

/-- Concrete evaluation helper: a second Reconciler run on the store
left by `oneDayStore_run` changes nothing but still issues the
unconditional `StreakData` upsert. -/
theorem oneDayStore_second_run :
    recalculateStreaksForward log2one
      { dailyScores := oneDayStore.dailyScores, streakData := [(0, 0)] } 0 =
      ({ dailyScores := oneDayStore.dailyScores, streakData := [(0, 0)] },
        [DbWrite.streak 0 0]) := by
  have hmax : maxDate oneDayStore.dailyScores = some 0 := by decide
  have hn : ((0 : ℤ) - 0 + 1).toNat = 0 + 1 := by decide
  simp only [recalculateStreaksForward, hmax]
  rw [if_neg (by decide : ¬ (0 : ℤ) < 0), hn]
  simp only [reconcileLoop]
  rw [zeroRow_step _ 0 (by decide)]
  dsimp only
  decide

/-- C2 counterexample: in `gapStore` the history runs from `0` to `2`
but day `1` has no `DailyScoreRecord`; after
`recalculateStreaksForward(0)` day `1` still has neither a
`DailyScoreRecord` nor a `StreakRecord` — the Reconciler skipped it
instead of invoking the Composer for it. -/
theorem c2_counterexample :
    maxDate gapStore.dailyScores = some 2 ∧
    alookup gapStore.dailyScores 1 = none ∧
    alookup ((recalculateStreaksForward log2one gapStore 0).1).dailyScores 1 = none ∧
    alookup ((recalculateStreaksForward log2one gapStore 0).1).streakData 1 = none := by
  rw [gapStore_run]
  exact ⟨by decide, by decide, by decide, by decide⟩

/-- C2 (amended): a date in the reconciliation range without a stored
`DailyScoreRecord` is skipped with a warning: `recalculateStreaksForward`
creates no `DailyScores` row for it and leaves its `StreakData` row
untouched, then continues with the next day. -/
theorem c2_amended (log2q : ℚ → ℚ) (s : Store) (startDate d : ℤ)
    (h : alookup s.dailyScores d = none) :
    alookup ((recalculateStreaksForward log2q s startDate).1).dailyScores d = none ∧
    alookup ((recalculateStreaksForward log2q s startDate).1).streakData d =
      alookup s.streakData d := by
  rcases hm : maxDate s.dailyScores with _ | last
  · simp only [recalculateStreaksForward, hm]
    exact ⟨h, by trivial⟩
  · simp only [recalculateStreaksForward, hm]
    by_cases hl : last < startDate
    · rw [if_pos hl]
      exact ⟨h, by trivial⟩
    · rw [if_neg hl]
      exact reconcileLoop_missing_day log2q _ startDate d s h

/-- C2 witness: the amended behaviour evaluated on `gapStore` at the
missing in-range day `1`. -/
theorem c2_amended_witness :
    alookup gapStore.dailyScores 1 = none ∧
    (alookup ((recalculateStreaksForward log2one gapStore 0).1).dailyScores 1 = none ∧
      alookup ((recalculateStreaksForward log2one gapStore 0).1).streakData 1 =
        alookup gapStore.streakData 1) :=
  ⟨by decide, c2_amended log2one gapStore 0 1 (by decide)⟩

/-- C3 counterexample: with one scored day (`oneDayStore`), a second
`recalculateStreaksForward(0)` immediately after a first one still
performs a store write — the unconditional `StreakData` upsert of the
loop — so the second run's write list is not empty. -/
theorem c3_counterexample :
    (recalculateStreaksForward log2one
      ((recalculateStreaksForward log2one oneDayStore 0).1) 0).2 =
      [DbWrite.streak 0 0] ∧
    (recalculateStreaksForward log2one
      ((recalculateStreaksForward log2one oneDayStore 0).1) 0).2 ≠ [] := by
  rw [oneDayStore_run]
  dsimp only
  rw [oneDayStore_second_run]
  exact ⟨rfl, by decide⟩

/-- C3 (amended): the first `recalculateStreaksForward` run reaches a
fixed point: a second run with unchanged data leaves the store exactly
as it was, performs no `DailyScores` write, and every write it does
perform is a `StreakData` upsert that rewrites the already-stored
value. -/
theorem c3_amended (log2q : ℚ → ℚ) (s : Store) (startDate : ℤ) :
    (recalculateStreaksForward log2q
        ((recalculateStreaksForward log2q s startDate).1) startDate).1 =
      (recalculateStreaksForward log2q s startDate).1 ∧
    ∀ w ∈ (recalculateStreaksForward log2q
        ((recalculateStreaksForward log2q s startDate).1) startDate).2,
      ∃ dd v, w = DbWrite.streak dd v ∧
        alookup ((recalculateStreaksForward log2q s startDate).1).streakData dd = some v := by
  rcases hm : maxDate s.dailyScores with _ | last
  · simp only [recalculateStreaksForward, hm]
    exact ⟨by trivial, by simp⟩
  · by_cases hl : last < startDate
    · simp only [recalculateStreaksForward, hm]
      rw [if_pos hl]
      simp only [recalculateStreaksForward, hm]
      rw [if_pos hl]
      exact ⟨by trivial, by simp⟩
    · have h1 : recalculateStreaksForward log2q s startDate =
          reconcileLoop log2q (last - startDate + 1).toNat s startDate := by
        simp only [recalculateStreaksForward, hm]
        rw [if_neg hl]
      have hmax : maxDate
          ((reconcileLoop log2q (last - startDate + 1).toNat s startDate).1).dailyScores =
          some last := by
        unfold maxDate
        rw [reconcileLoop_map_fst]
        exact hm
      have h2 : recalculateStreaksForward log2q
          ((reconcileLoop log2q (last - startDate + 1).toNat s startDate).1) startDate =
          reconcileLoop log2q (last - startDate + 1).toNat
            ((reconcileLoop log2q (last - startDate + 1).toNat s startDate).1) startDate := by
        simp only [recalculateStreaksForward, hmax]
        rw [if_neg hl]
      rw [h1, h2]
      exact reconcileLoop_twice log2q (last - startDate + 1).toNat startDate s

/-- C9: `recalculateDailyScore` is idempotent — with unchanged source
data, running it again for the same date returns the bit-identical
record and leaves the store exactly as after the first run. -/
theorem c9_compose_idempotent (log2q : ℚ → ℚ) (env : Env) (s : Store) (d : ℤ) :
    recalculateDailyScore log2q env ((recalculateDailyScore log2q env s d).1) d =
      recalculateDailyScore log2q env s d := by
  have hdata := scoreDataForDb_after log2q env s d
  have htr := composerTransition_after log2q env s d
  have hD : (recalculateDailyScore log2q env
      ((recalculateDailyScore log2q env s d).1) d).1.dailyScores =
      ((recalculateDailyScore log2q env s d).1).dailyScores := by
    show upsertDaily ((recalculateDailyScore log2q env s d).1).dailyScores d
        (scoreDataForDb log2q env ((recalculateDailyScore log2q env s d).1) d) =
      upsertDaily s.dailyScores d (scoreDataForDb log2q env s d)
    rw [hdata]
    exact upsertDaily_idem _ _ _
  have hS : (recalculateDailyScore log2q env
      ((recalculateDailyScore log2q env s d).1) d).1.streakData =
      ((recalculateDailyScore log2q env s d).1).streakData := by
    show aupsert ((recalculateDailyScore log2q env s d).1).streakData d
        (composerTransition env ((recalculateDailyScore log2q env s d).1) d).1 =
      aupsert s.streakData d (composerTransition env s d).1
    rw [htr]
    exact aupsert_idem _ _ _
  exact Prod.ext (Store.ext hD hS) hdata

/-- C6: the streak bonus stored by both paths follows one formula — `0`
on a zero bonus basis, and `Math.round(Math.log2(2 + basis/365)*100)/100`
on a positive basis: the Composer's and the Reconciler's bonus functions
are pointwise equal, the Composer's returned record carries
`composerBonus` of its transition basis, and the Reconciler's processed
day stores `reconcilerBonus` of its transition basis. -/
theorem c6_bonus_formula (log2q : ℚ → ℚ) (env : Env) (s : Store) (d : ℤ) (b : ℕ) :
    composerBonus log2q b = reconcilerBonus log2q b ∧
    (0 < b → composerBonus log2q b =
      (jsRound (log2q (2 + (b : ℚ) / 365) * 100) : ℚ) / 100) ∧
    composerBonus log2q 0 = 0 ∧
    ((recalculateDailyScore log2q env s d).2).streak_bonus_component =
      composerBonus log2q (composerTransition env s d).2 ∧
    (∀ row, alookup s.dailyScores d = some row →
      ∃ row', alookup ((reconcileStep log2q s d).1).dailyScores d = some row' ∧
        row'.streak_bonus_component =
          reconcilerBonus log2q (reconcilerTransition s d row).2) := by
  refine ⟨rfl, ?_, by simp [composerBonus], rfl, ?_⟩
  · intro hb
    simp [composerBonus, hb]
  · intro row hd
    by_cases hb : reconcilerBonus log2q (reconcilerTransition s d row).2 =
        row.streak_bonus_component
    · rw [reconcileStep_of_eqBonus log2q s d row hd hb]
      exact ⟨row, hd, hb.symm⟩
    · rw [reconcileStep_of_neBonus log2q s d row hd hb]
      refine ⟨{ row with
          streak_bonus_component := reconcilerBonus log2q (reconcilerTransition s d row).2
          total_daily_score := reconcilerBaseScore row +
            reconcilerBonus log2q (reconcilerTransition s d row).2 }, ?_, rfl⟩
      show alookup (aupdate s.dailyScores d _) d = _
      rw [alookup_aupdate_self, hd]
      rfl

/-- C6 witness: the formula at basis `1`, and the reconciler-side stored
bonus evaluated on `oneDayStore` at day `0`. -/
theorem c6_bonus_formula_witness :
    0 < 1 ∧
    composerBonus log2one 1 = (jsRound (log2one (2 + (1 : ℚ) / 365) * 100) : ℚ) / 100 ∧
    alookup oneDayStore.dailyScores 0 = some zeroRow ∧
    (∃ row', alookup ((reconcileStep log2one oneDayStore 0).1).dailyScores 0 = some row' ∧
      row'.streak_bonus_component =
        reconcilerBonus log2one (reconcilerTransition oneDayStore 0 zeroRow).2) :=
  ⟨by decide,
    (c6_bonus_formula log2one emptyEnv emptyStore 0 1).2.1 (by decide),
    by decide,
    (c6_bonus_formula log2one emptyEnv oneDayStore 0 1).2.2.2.2 zeroRow (by decide)⟩

/-- C7: the invariant `totalScore = habitComponent*0.45 +
taskComponent*0.45 + timeComponent*0.1 + streakBonusComponent`, read off
one stored row, holds for every `DailyScores` row after a Composer run
and after a Reconciler run, whenever it held for every stored row
before (the Composer establishes it outright for the row it writes; the
Reconciler rewrites `totalScore` from the stored components whenever it
changes the bonus). -/
theorem c7_total_score_invariant (log2q : ℚ → ℚ) (env : Env) (s : Store) (d startDate : ℤ)
    (h : ∀ p ∈ s.dailyScores, scoreInvariant p.2) :
    (∀ p ∈ ((recalculateDailyScore log2q env s d).1).dailyScores, scoreInvariant p.2) ∧
    (∀ p ∈ ((recalculateStreaksForward log2q s startDate).1).dailyScores,
      scoreInvariant p.2) := by
  constructor
  · intro p hp
    rcases mem_upsertDaily s.dailyScores d (scoreDataForDb log2q env s d) p hp with
      hmem | ⟨notes, hn⟩
    · exact h p hmem
    · rw [hn]
      show scoreInvariant ((scoreDataForDb log2q env s d).toRow notes)
      simp only [scoreInvariant, ScoreData.toRow, scoreDataForDb, baseDailyScore]
  · rcases hm : maxDate s.dailyScores with _ | last
    · simp only [recalculateStreaksForward, hm]
      exact h
    · simp only [recalculateStreaksForward, hm]
      by_cases hl : last < startDate
      · rw [if_pos hl]
        exact h
      · rw [if_neg hl]
        exact reconcileLoop_inv log2q _ startDate s h

/-- C7 witness: the invariant evaluated on the row the Composer writes
for day `0` starting from the empty store. -/
theorem c7_total_score_invariant_witness :
    scoreInvariant ((scoreDataForDb log2one emptyEnv emptyStore 0).toRow "") :=
  (c7_total_score_invariant log2one emptyEnv emptyStore 0 0 (by simp [emptyStore])).1
    (0, (scoreDataForDb log2one emptyEnv emptyStore 0).toRow "")
    (List.mem_singleton.mpr rfl)

/-- C10: neither engine operation touches `notes` — the Composer's
upsert omits the `notes` column, so every previously stored row keeps
its notes — and the Reconciler leaves every row's base components,
rest-day flag and notes exactly as stored (`rowBase` is preserved for
every date), changing at most `streak_bonus_component` and
`total_daily_score`. -/
theorem c10_frame (log2q : ℚ → ℚ) (env : Env) (s : Store) (d startDate : ℤ) :
    (∀ k r, alookup s.dailyScores k = some r →
      ∃ r', alookup ((recalculateDailyScore log2q env s d).1).dailyScores k = some r' ∧
        r'.notes = r.notes) ∧
    (∀ k, (alookup ((recalculateStreaksForward log2q s startDate).1).dailyScores k).map
        rowBase = (alookup s.dailyScores k).map rowBase) := by
  constructor
  · intro k r hr
    by_cases hk : k = d
    · subst hk
      exact ⟨(scoreDataForDb log2q env s k).toRow r.notes,
        alookup_upsertDaily_of_some _ _ _ _ hr, rfl⟩
    · refine ⟨r, ?_, rfl⟩
      show alookup (upsertDaily s.dailyScores d (scoreDataForDb log2q env s d)) k = some r
      rw [alookup_upsertDaily_ne _ _ _ _ hk]
      exact hr
  · intro k
    rcases hm : maxDate s.dailyScores with _ | last
    · simp only [recalculateStreaksForward, hm]
    · simp only [recalculateStreaksForward, hm]
      by_cases hl : last < startDate
      · rw [if_pos hl]
      · rw [if_neg hl]
        exact reconcileLoop_rowBase log2q _ startDate s k

/-- C10 witness: the Composer's rescoring of day `0` of `oneDayStore`
keeps the stored row's notes. -/
theorem c10_frame_witness :
    alookup oneDayStore.dailyScores 0 = some zeroRow ∧
    (∃ r', alookup ((recalculateDailyScore log2one emptyEnv oneDayStore 0).1).dailyScores 0 =
      some r' ∧ r'.notes = zeroRow.notes) :=
  ⟨by decide, (c10_frame log2one emptyEnv oneDayStore 0 0).1 0 zeroRow (by decide)⟩
